import Mathlib

/-!
Verification of the fund NAV-estimation core (`src/valuation.py`,
`src/data_fetcher.py`) against its specification.

Shallow embedding conventions:
* Python floats are modelled as rationals (`ℚ`); all arithmetic in the
  modelled code paths is exact on the inputs the claims use.
* A Python dict lookup `prices.get(k)` is modelled as a function
  `String → Option QuoteRecord`; `none` is a missing key.  The quote
  records built by `get_realtime_stock_prices` always carry the three
  fields `name`/`price`/`change`, so a present record is always truthy.
* Network collaborators are abstracted as parameters (the raw page
  contents or a search function), exactly as the spec's §6 interface
  list prescribes.
-/

namespace Fund

/-- A holding row as built by `get_fund_holdings` (src/data_fetcher.py:282-287):
display `code`, `name`, `weight` (percentage points) and the Sina quote key
`fetch_code`.  `estimate_nav_change` accepts dicts that may lack
`fetch_code` (it falls back to `code`), hence the `Option`. -/
structure Holding where
  code : String
  name : String
  weight : ℚ
  fetch_code : Option String
deriving DecidableEq

/-- A live quote as built by `get_realtime_stock_prices`
(src/data_fetcher.py:438-442). -/
structure QuoteRecord where
  name : String
  price : ℚ
  change : ℚ
deriving DecidableEq

/-- One per-holding detail row of the valuation result
(src/valuation.py:44-61).  `price`/`change` are `none` when the quote was
missing (Python `None`). -/
structure DetailRow where
  code : String
  name : String
  weight : ℚ
  price : Option ℚ
  change : Option ℚ
  contribution : ℚ
deriving DecidableEq

/-- Result of `estimate_nav_change` (src/valuation.py:13-17). -/
structure ValuationResult where
  estimated_change : ℚ
  total_weight_used : ℚ
  details : List DetailRow
deriving DecidableEq

/-- `lookup_code = item.get('fetch_code', code)` (src/valuation.py:29). -/
def lookupCode (item : Holding) : String :=
  item.fetch_code.getD item.code

/-- The detail row recorded for one holding inside the loop of
`estimate_nav_change` (src/valuation.py:35-61): on a quote hit the row
carries the quote's name, price, change and contribution
`change * weight`; on a miss it carries the holding's own name, `none`
price/change and contribution `0`. -/
def detailRow (prices : String → Option QuoteRecord) (item : Holding) : DetailRow :=
  match prices (lookupCode item) with
  | some p => ⟨item.code, p.name, item.weight, some p.price, some p.change, p.change * item.weight⟩
  | none => ⟨item.code, item.name, item.weight, none, none, 0⟩

/-- The accumulation loop of `estimate_nav_change` (src/valuation.py:26-61):
returns `(total_weighted_change, total_weight, details)`.  The Python
`for` loop folds left to right; since the two sums are rearrangeable this
right recursion computes the same triple, with details in input order. -/
def navScan (prices : String → Option QuoteRecord) : List Holding → ℚ × ℚ × List DetailRow
  | [] => (0, 0, [])
  | item :: rest =>
    let acc := navScan prices rest
    match prices (lookupCode item) with
    | some p => (p.change * item.weight + acc.1, item.weight + acc.2.1, detailRow prices item :: acc.2.2)
    | none => (acc.1, acc.2.1, detailRow prices item :: acc.2.2)

/-- `estimate_nav_change` (src/valuation.py:4-75). -/
def estimate_nav_change (holdings : List Holding) (prices : String → Option QuoteRecord) :
    ValuationResult :=
  if holdings.isEmpty then ⟨0, 0, []⟩
  else
    let acc := navScan prices holdings
    if acc.2.1 = 0 then ⟨0, 0, acc.2.2⟩
    else ⟨acc.1 / acc.2.1, acc.2.1, acc.2.2⟩

/-- Sum of `weight * changePercent` over the quote-matched holdings (the
numerator of the coverage-weighted average). -/
def matchedNum (prices : String → Option QuoteRecord) : List Holding → ℚ
  | [] => 0
  | item :: rest =>
    (match prices (lookupCode item) with
     | some p => p.change * item.weight
     | none => 0) + matchedNum prices rest

/-- Sum of `weight` over the quote-matched holdings (the denominator of the
coverage-weighted average, and the `total_weight_used` field). -/
def matchedDen (prices : String → Option QuoteRecord) : List Holding → ℚ
  | [] => 0
  | item :: rest =>
    (match prices (lookupCode item) with
     | some _ => item.weight
     | none => 0) + matchedDen prices rest

theorem navScan_eq (prices : String → Option QuoteRecord) (l : List Holding) :
    navScan prices l = (matchedNum prices l, matchedDen prices l, l.map (detailRow prices)) := by
  induction l with
  | nil => rfl
  | cons item rest ih =>
    simp only [navScan, matchedNum, matchedDen, List.map, ih]
    cases prices (lookupCode item) <;> simp

theorem estimate_nav_change_fields (holdings : List Holding)
    (prices : String → Option QuoteRecord) :
    (estimate_nav_change holdings prices).estimated_change
        = matchedNum prices holdings / matchedDen prices holdings
    ∧ (estimate_nav_change holdings prices).total_weight_used
        = matchedDen prices holdings := by
  unfold estimate_nav_change
  by_cases he : holdings.isEmpty
  · rw [List.isEmpty_iff] at he
    subst he
    simp [matchedNum, matchedDen]
  · simp only [he, if_false, navScan_eq]
    by_cases hz : matchedDen prices holdings = 0
    · simp [hz]
    · simp [hz]

/-- C1: `estimate_nav_change` returns `estimatedChangePercent` equal to the
sum over quote-matched holdings of `weight * changePercent` divided by the
sum over quote-matched holdings of `weight`, and `totalWeightUsed` equal to
that sum of matched weights (unmatched holdings excluded from both).  When
no weight matched the code returns `0.0`, which coincides with `ℚ`'s
`x / 0 = 0` convention, so the quotient form holds unconditionally.  In
particular, for holdings `[{w:60,key:"A"},{w:40,key:"B"}]` with quotes
`{A:+2.0, B:-1.0}` the result is `0.8` with `totalWeightUsed = 100`, and
with quotes `{A:+2.0}` only, the result is `2.0` with
`totalWeightUsed = 60`. -/
theorem estimate_weighted_average :
    (∀ (holdings : List Holding) (prices : String → Option QuoteRecord),
      (estimate_nav_change holdings prices).estimated_change
          = matchedNum prices holdings / matchedDen prices holdings
      ∧ (estimate_nav_change holdings prices).total_weight_used
          = matchedDen prices holdings)
    ∧ (estimate_nav_change
          [⟨"A", "a", 60, none⟩, ⟨"B", "b", 40, none⟩]
          (fun k => if k = "A" then some ⟨"a", 10, 2⟩
                    else if k = "B" then some ⟨"b", 5, -1⟩ else none)).estimated_change
        = 8 / 10
    ∧ (estimate_nav_change
          [⟨"A", "a", 60, none⟩, ⟨"B", "b", 40, none⟩]
          (fun k => if k = "A" then some ⟨"a", 10, 2⟩
                    else if k = "B" then some ⟨"b", 5, -1⟩ else none)).total_weight_used
        = 100
    ∧ (estimate_nav_change
          [⟨"A", "a", 60, none⟩, ⟨"B", "b", 40, none⟩]
          (fun k => if k = "A" then some ⟨"a", 10, 2⟩ else none)).estimated_change
        = 2
    ∧ (estimate_nav_change
          [⟨"A", "a", 60, none⟩, ⟨"B", "b", 40, none⟩]
          (fun k => if k = "A" then some ⟨"a", 10, 2⟩ else none)).total_weight_used
        = 60 := by
  refine ⟨estimate_nav_change_fields, ?_, ?_, ?_, ?_⟩ <;>
    simp [estimate_nav_change, navScan, detailRow, lookupCode] <;> norm_num

/-- C5: with an empty holdings list, or whenever no holding has a matching
quote (the matched weight sums to zero), `estimate_nav_change` returns
`estimatedChangePercent = 0.0` and `totalWeightUsed = 0.0`; being a total
Lean function it performs no division by zero and raises nothing. -/
theorem estimate_zero_guard (holdings : List Holding)
    (prices : String → Option QuoteRecord)
    (h : holdings = [] ∨ matchedDen prices holdings = 0) :
    (estimate_nav_change holdings prices).estimated_change = 0
    ∧ (estimate_nav_change holdings prices).total_weight_used = 0 := by
  unfold estimate_nav_change
  rcases h with h | h
  · subst h; simp
  · by_cases he : holdings.isEmpty
    · simp [he]
    · simp [he, navScan_eq, h]

/-- Witness for C5 at a concrete input: one holding whose quote is absent. -/
theorem estimate_zero_guard_witness :
    (([⟨"600519", "x", 50, none⟩] : List Holding) = []
        ∨ matchedDen (fun _ => none) [⟨"600519", "x", 50, none⟩] = 0)
    ∧ ((estimate_nav_change [⟨"600519", "x", 50, none⟩] (fun _ => none)).estimated_change = 0
        ∧ (estimate_nav_change [⟨"600519", "x", 50, none⟩] (fun _ => none)).total_weight_used = 0) :=
  ⟨Or.inr (by norm_num [matchedDen, lookupCode]),
   estimate_zero_guard [⟨"600519", "x", 50, none⟩] (fun _ => none)
     (Or.inr (by norm_num [matchedDen, lookupCode]))⟩

/-- C6: the `details` sequence has exactly one record per input holding, in
input order: a matched holding yields a row with its weight, the quote's
price and change, and contribution `change * weight`; an unmatched holding
yields a row with `none` price and change and contribution `0`. -/
theorem estimate_details_rows (holdings : List Holding)
    (prices : String → Option QuoteRecord) :
    (estimate_nav_change holdings prices).details
        = holdings.map (fun item =>
            match prices (lookupCode item) with
            | some p => ⟨item.code, p.name, item.weight, some p.price, some p.change,
                p.change * item.weight⟩
            | none => ⟨item.code, item.name, item.weight, none, none, 0⟩)
    ∧ (estimate_nav_change holdings prices).details.length = holdings.length := by
  have hrow : (fun item =>
      match prices (lookupCode item) with
      | some p => (⟨item.code, p.name, item.weight, some p.price, some p.change,
          p.change * item.weight⟩ : DetailRow)
      | none => ⟨item.code, item.name, item.weight, none, none, 0⟩) = detailRow prices := by
    funext item
    unfold detailRow
    cases prices (lookupCode item) <;> rfl
  have hd : (estimate_nav_change holdings prices).details
      = holdings.map (detailRow prices) := by
    unfold estimate_nav_change
    by_cases he : holdings.isEmpty
    · rw [List.isEmpty_iff] at he; subst he; simp
    · simp only [he, if_false, navScan_eq]
      by_cases hz : matchedDen prices holdings = 0 <;> simp [hz]
  rw [hrow]
  exact ⟨hd, by rw [hd, List.length_map]⟩

theorem matchedDen_nonneg (prices : String → Option QuoteRecord)
    (holdings : List Holding) (hw : ∀ h ∈ holdings, 0 ≤ h.weight) :
    0 ≤ matchedDen prices holdings := by
  induction holdings with
  | nil => simp [matchedDen]
  | cons item rest ih =>
    have h0 : 0 ≤ item.weight := hw item (by simp)
    have h1 : 0 ≤ matchedDen prices rest := ih (fun h hm => hw h (by simp [hm]))
    unfold matchedDen
    cases prices (lookupCode item) <;> simp <;> positivity

theorem matchedNum_eq_zero (prices : String → Option QuoteRecord)
    (holdings : List Holding) (hw : ∀ h ∈ holdings, 0 ≤ h.weight)
    (hz : matchedDen prices holdings = 0) :
    matchedNum prices holdings = 0 := by
  induction holdings with
  | nil => simp [matchedNum]
  | cons item rest ih =>
    have hw0 : 0 ≤ item.weight := hw item (by simp)
    have hwr : ∀ h ∈ rest, 0 ≤ h.weight := fun h hm => hw h (by simp [hm])
    have hrest : 0 ≤ matchedDen prices rest := matchedDen_nonneg prices rest hwr
    unfold matchedDen at hz
    unfold matchedNum
    cases hp : prices (lookupCode item) with
    | none =>
      simp only [hp] at hz ⊢
      rw [zero_add] at hz ⊢
      exact ih hwr hz
    | some p =>
      simp only [hp] at hz ⊢
      have hwz : item.weight = 0 ∧ matchedDen prices rest = 0 := by
        constructor <;> linarith
      rw [hwz.1, mul_zero, zero_add]
      exact ih hwr hwz.2

theorem details_contribution_sum_eq (prices : String → Option QuoteRecord)
    (holdings : List Holding) :
    ((holdings.map (detailRow prices)).map DetailRow.contribution).sum
      = matchedNum prices holdings := by
  induction holdings with
  | nil => simp [matchedNum]
  | cons item rest ih =>
    simp only [List.map, List.sum_cons, matchedNum, ih, detailRow]
    cases prices (lookupCode item) <;> simp

/-- C10: the sum of the `contribution` fields over the returned `details`
equals `estimatedChangePercent * totalWeightUsed` (the weighted-sum
numerator); both sides are `0` when no holding matched.  The data model's
invariant `weight ≥ 0` (spec §3) is assumed: it rules out matched positive
and negative weights cancelling to a zero total. -/
theorem details_contribution_sum (holdings : List Holding)
    (prices : String → Option QuoteRecord)
    (hw : ∀ h ∈ holdings, 0 ≤ h.weight) :
    (((estimate_nav_change holdings prices).details).map DetailRow.contribution).sum
      = (estimate_nav_change holdings prices).estimated_change
          * (estimate_nav_change holdings prices).total_weight_used := by
  have hd : (estimate_nav_change holdings prices).details
      = holdings.map (detailRow prices) := by
    unfold estimate_nav_change
    by_cases he : holdings.isEmpty
    · rw [List.isEmpty_iff] at he; subst he; simp
    · simp only [he, if_false, navScan_eq]
      by_cases hz : matchedDen prices holdings = 0 <;> simp [hz]
  rw [hd, details_contribution_sum_eq]
  obtain ⟨h1, h2⟩ := estimate_nav_change_fields holdings prices
  rw [h1, h2]
  by_cases hz : matchedDen prices holdings = 0
  · rw [hz, mul_zero]
    exact matchedNum_eq_zero prices holdings hw hz
  · rw [div_mul_cancel₀ _ hz]

/-- Witness for C10 at a concrete input: one matched and one unmatched
holding with nonnegative weights. -/
theorem details_contribution_sum_witness :
    (∀ h ∈ ([⟨"A", "a", 60, none⟩, ⟨"B", "b", 40, none⟩] : List Holding), 0 ≤ h.weight)
    ∧ (((estimate_nav_change [⟨"A", "a", 60, none⟩, ⟨"B", "b", 40, none⟩]
          (fun k => if k = "A" then some ⟨"a", 10, 2⟩ else none)).details).map
            DetailRow.contribution).sum
      = (estimate_nav_change [⟨"A", "a", 60, none⟩, ⟨"B", "b", 40, none⟩]
          (fun k => if k = "A" then some ⟨"a", 10, 2⟩ else none)).estimated_change
        * (estimate_nav_change [⟨"A", "a", 60, none⟩, ⟨"B", "b", 40, none⟩]
            (fun k => if k = "A" then some ⟨"a", 10, 2⟩ else none)).total_weight_used :=
  ⟨by intro h hm; fin_cases hm <;> norm_num,
   details_contribution_sum [⟨"A", "a", 60, none⟩, ⟨"B", "b", 40, none⟩]
     (fun k => if k = "A" then some ⟨"a", 10, 2⟩ else none)
     (by intro h hm; fin_cases hm <;> norm_num)⟩

/-- Python `str.zfill(n)` restricted to its use here: left-pad with zeros
to `n` characters (src/data_fetcher.py:263,275; codes contain no sign). -/
def zfill (s : String) (n : Nat) : String :=
  String.mk (List.replicate (n - s.length) '0') ++ s

/-- Python `s.startswith(c)` for a one-character pattern. -/
def startsWithChar (s : String) (c : Char) : Bool :=
  s.data.head? = some c

/-- Python `re.search(r"[a-zA-Z]", s)` as a Boolean
(src/data_fetcher.py:274). -/
def containsAlpha (s : String) : Bool :=
  s.data.any (fun c => c.isAlpha)

/-- Python `str.lower()`, character-wise.  The codes it is applied to match
`[a-zA-Z0-9]+`, on which Python lowercasing is exactly per-character ASCII
lowercasing. -/
def strToLower (s : String) : String :=
  String.mk (s.data.map Char.toLower)

/-- The quote-key (Sina fetch code) computation of `get_fund_holdings`
(src/data_fetcher.py:251-280).  `marketId` is `some mid` when the security
link carried a market id (a digit string, hence a `Nat`), `none` when the
code was recovered from the cell text.  Being a Lean function it is total
and deterministic by construction. -/
def sinaCode (marketId : Option Nat) (stockCode : String) : String :=
  match marketId with
  | some mid =>
    if mid = 0 then "sz" ++ stockCode
    else if mid = 1 then "sh" ++ stockCode
    else if mid = 116 then "rt_hk" ++ zfill stockCode 5
    else if 100 ≤ mid then "gb_" ++ strToLower stockCode
    else if startsWithChar stockCode '6' || startsWithChar stockCode '9' then "sh" ++ stockCode
    else "sz" ++ stockCode
  | none =>
    if containsAlpha stockCode then "gb_" ++ strToLower stockCode
    else if stockCode.length < 6 then "rt_hk" ++ zfill stockCode 5
    else if startsWithChar stockCode '6' || startsWithChar stockCode '5' then "sh" ++ stockCode
    else if startsWithChar stockCode '4' || startsWithChar stockCode '8' then "bj" ++ stockCode
    else "sz" ++ stockCode

/-- Modelled from the spec: the identifier-mapping rules as the spec states
them (§4.1 rules 1-5 and claim C2), for refinement comparison with
`sinaCode`.  The spec applies the full code-shape heuristics both when the
market-id is absent and when it is present but unrecognized. -/
def sinaCodeClaimed (marketId : Option Nat) (stockCode : String) : String :=
  match marketId with
  | some mid =>
    if mid = 0 then "sz" ++ stockCode
    else if mid = 1 then "sh" ++ stockCode
    else if mid = 116 then "rt_hk" ++ zfill stockCode 5
    else if 100 ≤ mid then "gb_" ++ strToLower stockCode
    else if containsAlpha stockCode then "gb_" ++ strToLower stockCode
    else if stockCode.length < 6 then "rt_hk" ++ zfill stockCode 5
    else if startsWithChar stockCode '6' || startsWithChar stockCode '5' then "sh" ++ stockCode
    else if startsWithChar stockCode '4' || startsWithChar stockCode '8' then "bj" ++ stockCode
    else "sz" ++ stockCode
  | none =>
    if containsAlpha stockCode then "gb_" ++ strToLower stockCode
    else if stockCode.length < 6 then "rt_hk" ++ zfill stockCode 5
    else if startsWithChar stockCode '6' || startsWithChar stockCode '5' then "sh" ++ stockCode
    else if startsWithChar stockCode '4' || startsWithChar stockCode '8' then "bj" ++ stockCode
    else "sz" ++ stockCode

/-- C2 counterexample: for the present-but-unrecognized market-id `50` and
the code `"400000"`, the code maps to Shenzhen (`sz`) via the narrower
"starts with 6 or 9 → sh, else sz" fallback (src/data_fetcher.py:266-269),
while the claim's code-shape heuristics would map it to the Beijing board
(`bj`). -/
theorem sinaCode_unrecognized_market_counterexample :
    sinaCode (some 50) "400000" = "sz400000"
    ∧ sinaCodeClaimed (some 50) "400000" = "bj400000"
    ∧ ("sz400000" : String) ≠ "bj400000" := by
  refine ⟨by decide, by decide, by decide⟩

/-- C2 amended: the prioritized rules hold as claimed for market-ids `0`,
`1`, `116`, `≥ 100`, and for the absent case; but for a market-id that is
present and unrecognized (`2 ≤ mid < 100`) the code applies only the
narrower A-share fallback — code starting with `6` or `9` → `sh`,
otherwise `sz` — not the full code-shape heuristics. -/
theorem sinaCode_rules (code : String) :
    sinaCode (some 0) code = "sz" ++ code
    ∧ sinaCode (some 1) code = "sh" ++ code
    ∧ sinaCode (some 116) code = "rt_hk" ++ zfill code 5
    ∧ (∀ mid : Nat, 100 ≤ mid → mid ≠ 116 → sinaCode (some mid) code = "gb_" ++ strToLower code)
    ∧ (∀ mid : Nat, 2 ≤ mid → mid < 100 →
        sinaCode (some mid) code
          = if startsWithChar code '6' || startsWithChar code '9' then "sh" ++ code
            else "sz" ++ code)
    ∧ sinaCode none code
        = (if containsAlpha code then "gb_" ++ strToLower code
           else if code.length < 6 then "rt_hk" ++ zfill code 5
           else if startsWithChar code '6' || startsWithChar code '5' then "sh" ++ code
           else if startsWithChar code '4' || startsWithChar code '8' then "bj" ++ code
           else "sz" ++ code) := by
  refine ⟨rfl, rfl, rfl, ?_, ?_, rfl⟩
  · intro mid h100 h116
    have h0 : mid ≠ 0 := by omega
    have h1 : mid ≠ 1 := by omega
    simp [sinaCode, h0, h1, h116, h100]
  · intro mid h2 hlt
    have h0 : mid ≠ 0 := by omega
    have h1 : mid ≠ 1 := by omega
    have h116 : mid ≠ 116 := by omega
    have h100 : ¬ (100 ≤ mid) := by omega
    simp [sinaCode, h0, h1, h116, h100]

/-- Witness for C2's amended theorem at concrete inputs, discharging the
numeric side conditions. -/
theorem sinaCode_rules_witness :
    sinaCode (some 105) "AAPL" = "gb_aapl" ∧ sinaCode (some 50) "600519" = "sh600519" :=
  ⟨((sinaCode_rules "AAPL").2.2.2.1 105 (by omega) (by omega)).trans (by decide),
   ((sinaCode_rules "600519").2.2.2.2.1 50 (by omega) (by omega)).trans (by decide)⟩

theorem append_ne_empty (s t : String) (hs : s ≠ "") : s ++ t ≠ "" := by
  intro h
  apply hs
  have hl := congrArg String.length h
  rw [String.length_append] at hl
  have h0 : s.length = 0 := by
    have : String.length "" = 0 := rfl
    omega
  cases s with
  | mk data =>
    cases data with
    | nil => rfl
    | cons c cs => simp [String.length] at h0

/-- C9: the identifier mapping is total over every code string and every
market-id (present or absent): it always returns a non-empty quote key and,
being a pure total Lean function, raises nothing and returns the same key
on the same inputs. -/
theorem sinaCode_total_nonempty (marketId : Option Nat) (code : String)
    (_h : code ≠ "") : sinaCode marketId code ≠ "" := by
  clear _h
  cases marketId with
  | none =>
    simp only [sinaCode]
    split_ifs <;> apply append_ne_empty <;> decide
  | some mid =>
    simp only [sinaCode]
    split_ifs <;> apply append_ne_empty <;> decide

/-- Witness for C9 at a concrete input. -/
theorem sinaCode_total_nonempty_witness :
    ("00700" : String) ≠ "" ∧ sinaCode (some 116) "00700" ≠ "" :=
  ⟨by decide, sinaCode_total_nonempty (some 116) "00700" (by decide)⟩

/-- Whether `pat` occurs as a contiguous run in `l` (helper for Python's
`in` on strings). -/
def subAt (pat : List Char) : List Char → Bool
  | [] => pat.isEmpty
  | c :: rest => List.isPrefixOf pat (c :: rest) || subAt pat rest

/-- Python `pat in s` for strings. -/
def strContains (s pat : String) : Bool :=
  subAt pat.data s.data

/-- `is_feeder_named` (src/data_fetcher.py:308): the fund name is present
(Python truthiness of `fund_name`) and contains `"联接"` or `"ETF"`.
`none` models both a missing name and the empty string (both falsy); the
empty string contains neither marker, so the identification is exact. -/
def isFeederNamed (fundName : Option String) : Bool :=
  match fundName with
  | none => false
  | some n => strContains n "联接" || strContains n "ETF"

/-- `total_weight = sum(h['weight'] for h in holdings)`
(src/data_fetcher.py:300). -/
def totalWeight (holdings : List Holding) : ℚ :=
  (holdings.map Holding.weight).sum

/-- Whether `get_fund_holdings` attempts feeder resolution, i.e. reaches
the target search (src/data_fetcher.py:310-311): the outer trigger
`not holdings or (total_weight > 100 and feeder) or (total_weight < 60 and
feeder)` conjoined with the inner `if is_feeder_named` guard. -/
def attemptsFeederResolution (holdings : List Holding) (fundName : Option String) : Bool :=
  (holdings.isEmpty
      || (decide (totalWeight holdings > 100) && isFeederNamed fundName)
      || (decide (totalWeight holdings < 60) && isFeederNamed fundName))
    && isFeederNamed fundName

/-- Modelled from the spec: claim C4's trigger condition as stated —
holdings empty, OR total weight above 100 with the feeder marker, OR total
weight below 60 with the feeder marker — for comparison with
`attemptsFeederResolution`. -/
def attemptsFeederResolutionClaimed (holdings : List Holding) (fundName : Option String) : Bool :=
  holdings.isEmpty
    || (decide (totalWeight holdings > 100) && isFeederNamed fundName)
    || (decide (totalWeight holdings < 60) && isFeederNamed fundName)

/-- C4 counterexample: with an empty holdings list and a fund whose name
lacks the feeder/ETF marker, the claim's condition triggers but the code
does not attempt feeder resolution — the search is guarded by the inner
`if is_feeder_named` (src/data_fetcher.py:311). -/
theorem feeder_trigger_empty_counterexample :
    attemptsFeederResolution [] (some "普通混合基金") = false
    ∧ attemptsFeederResolutionClaimed [] (some "普通混合基金") = true := by
  constructor
  · simp [attemptsFeederResolution, isFeederNamed, strContains, subAt, List.isPrefixOf]
  · simp [attemptsFeederResolutionClaimed]

/-- C4 amended: feeder resolution is attempted exactly when the fund name
contains the feeder/ETF marker AND (the parsed holdings are empty, or the
total parsed weight exceeds 100, or it is below 60); in particular,
holdings summing to 45 on a marker-named fund trigger it, while the same
holdings on a fund without the marker do not.  (Empty holdings alone, on a
fund without the marker, do not trigger it — see the counterexample.) -/
theorem feeder_trigger_rule :
    (∀ (holdings : List Holding) (fundName : Option String),
      attemptsFeederResolution holdings fundName
        = (isFeederNamed fundName
            && (holdings.isEmpty
                || decide (totalWeight holdings > 100)
                || decide (totalWeight holdings < 60))))
    ∧ attemptsFeederResolution
        [⟨"600519", "x", 25, none⟩, ⟨"000001", "y", 20, none⟩]
        (some "沪深300ETF联接A") = true
    ∧ attemptsFeederResolution
        [⟨"600519", "x", 25, none⟩, ⟨"000001", "y", 20, none⟩]
        (some "普通混合基金") = false := by
  refine ⟨?_, ?_, ?_⟩
  · intro holdings fundName
    cases hf : isFeederNamed fundName <;>
      simp [attemptsFeederResolution, hf, Bool.and_comm]
  · have h45 : totalWeight [(⟨"600519", "x", 25, none⟩ : Holding), ⟨"000001", "y", 20, none⟩]
        = 45 := by
      norm_num [totalWeight]
    simp [attemptsFeederResolution, h45, isFeederNamed, strContains, subAt, List.isPrefixOf]
    norm_num
  · simp [attemptsFeederResolution, isFeederNamed, strContains, subAt, List.isPrefixOf]

/-- Python truthiness of an optional string: `None` and `""` are falsy. -/
def truthy : Option String → Bool
  | none => false
  | some s => !s.isEmpty

/-- Outcome of the target search of feeder resolution: the accepted target
code (or `none`) together with the list of queries submitted to the
name-search collaborator, in order. -/
structure FeederOutcome where
  target : Option String
  queries : List String
deriving DecidableEq

/-- The search sequence of feeder resolution (src/data_fetcher.py:341-352),
with `_search_etf_code` abstracted as the collaborator `search` (it returns
`none` on failure, possibly `some ""` on a degenerate response, hence the
Python-truthiness checks): first search the cleaned name, discarding a
self-match; if the result is falsy and the cleaned name does not contain
`"ETF"`, search once more with `"ETF"` appended.  Returns the candidate
together with the list of queries issued. -/
def feederSearchStep (search : String → Option String)
    (fund_code target_name : String) : Option String × List String :=
  let t0 := search target_name
  let t1 : Option String := if t0 = some fund_code then none else t0
  if truthy t1 then (t1, [target_name])
  else if strContains target_name "ETF" then (t1, [target_name])
  else (search (target_name ++ "ETF"), [target_name, target_name ++ "ETF"])

/-- The final acceptance check of feeder resolution
(src/data_fetcher.py:354): the candidate is accepted only when truthy and
different from the fund's own code. -/
def resolveFeederTarget (search : String → Option String)
    (fund_code target_name : String) : FeederOutcome :=
  let step := feederSearchStep search fund_code target_name
  if truthy step.1 && !(decide (step.1 = some fund_code)) then ⟨step.1, step.2⟩
  else ⟨none, step.2⟩

theorem resolveFeederTarget_eq (search : String → Option String)
    (fund_code target_name : String) (o : Option String) (q : List String)
    (hstep : feederSearchStep search fund_code target_name = (o, q)) :
    resolveFeederTarget search fund_code target_name
      = if truthy o && !(decide (o = some fund_code)) then ⟨o, q⟩ else ⟨none, q⟩ := by
  unfold resolveFeederTarget
  rw [hstep]

theorem feederSearchStep_self_retry (search : String → Option String)
    (fund_code target_name : String)
    (hself : search target_name = some fund_code)
    (hetf : strContains target_name "ETF" = false) :
    feederSearchStep search fund_code target_name
      = (search (target_name ++ "ETF"), [target_name, target_name ++ "ETF"]) := by
  simp only [feederSearchStep]
  rw [hself]
  simp [truthy, hetf]

theorem feederSearchStep_queries (search : String → Option String) (fc n : String) :
    (feederSearchStep search fc n).2 = [n] ∨ (feederSearchStep search fc n).2 = [n, n ++ "ETF"] := by
  simp only [feederSearchStep]
  split_ifs <;> simp

/-- C7: a self-match is never accepted as the target; when the first search
self-matches and the cleaned name does not already contain `"ETF"`, exactly
one retry with `"ETF"` appended is submitted before giving up (and in every
case at most those two queries are issued); resolution failure is not an
error — the outcome is simply an empty target. -/
theorem feeder_self_match (search : String → Option String)
    (fund_code target_name : String) :
    (resolveFeederTarget search fund_code target_name).target ≠ some fund_code
    ∧ ((resolveFeederTarget search fund_code target_name).queries = [target_name]
        ∨ (resolveFeederTarget search fund_code target_name).queries
            = [target_name, target_name ++ "ETF"])
    ∧ (search target_name = some fund_code → strContains target_name "ETF" = false →
        (resolveFeederTarget search fund_code target_name).queries
          = [target_name, target_name ++ "ETF"])
    ∧ (search target_name = some fund_code → strContains target_name "ETF" = false →
        search (target_name ++ "ETF") = none →
        (resolveFeederTarget search fund_code target_name).target = none) := by
  rcases hstep : feederSearchStep search fund_code target_name with ⟨o, q⟩
  have hres := resolveFeederTarget_eq search fund_code target_name o q hstep
  refine ⟨?_, ?_, ?_, ?_⟩
  · rw [hres]
    split_ifs with hacc
    · show o ≠ some fund_code
      intro hc
      rw [hc] at hacc
      simp at hacc
    · simp
  · have hq := feederSearchStep_queries search fund_code target_name
    rw [hstep] at hq
    simp only at hq
    rw [hres]
    split_ifs <;> simpa using hq
  · intro hself hetf
    have h := (feederSearchStep_self_retry search fund_code target_name hself hetf).symm.trans hstep
    have hq2 : q = [target_name, target_name ++ "ETF"] := by
      have h2 := congrArg Prod.snd h
      simpa using h2.symm
    rw [hres]
    split_ifs <;> simp [hq2]
  · intro hself hetf hretry
    have h := (feederSearchStep_self_retry search fund_code target_name hself hetf).symm.trans hstep
    have ho : o = none := by
      have h1 := congrArg Prod.fst h
      simp only at h1
      rw [hretry] at h1
      exact h1.symm
    rw [hres, ho]
    simp [truthy]

/-- Witness for C7 at a concrete input: the first search self-matches, the
cleaned name lacks `"ETF"`, and the retry fails. -/
theorem feeder_self_match_witness :
    ((fun q => if q = "中证500" then some "012345" else none) "中证500" = some "012345")
    ∧ strContains "中证500" "ETF" = false
    ∧ ((fun q => if q = "中证500" then some "012345" else none) ("中证500" ++ "ETF") = none)
    ∧ (resolveFeederTarget (fun q => if q = "中证500" then some "012345" else none)
        "012345" "中证500").queries = ["中证500", "中证500" ++ "ETF"]
    ∧ (resolveFeederTarget (fun q => if q = "中证500" then some "012345" else none)
        "012345" "中证500").target = none := by
  refine ⟨rfl, by decide, by decide, ?_, ?_⟩
  · exact (feeder_self_match (fun q => if q = "中证500" then some "012345" else none)
      "012345" "中证500").2.2.1 rfl (by decide)
  · exact (feeder_self_match (fun q => if q = "中证500" then some "012345" else none)
      "012345" "中证500").2.2.2 rfl (by decide) (by decide)

/-- The quote key assigned to a resolved feeder target
(src/data_fetcher.py:356-358): `sh` for codes starting with `'5'`,
otherwise `sz` — narrower than the general heuristic of `sinaCode`. -/
def feederQuoteKey (target_code : String) : String :=
  if startsWithChar target_code '5' then "sh" ++ target_code else "sz" ++ target_code

/-- The holdings list `get_fund_holdings` returns when feeder resolution
accepts a target (src/data_fetcher.py:354-360): a single synthetic holding
with the target's code, the cleaned name, weight `95.0` and the
ETF-specific quote key; `none` when no target was accepted. -/
def feederHoldings (search : String → Option String)
    (fund_code target_name : String) : Option (List Holding) :=
  match (resolveFeederTarget search fund_code target_name).target with
  | some t => some [⟨t, target_name, 95, some (feederQuoteKey t)⟩]
  | none => none

/-- C8: when feeder resolution accepts a distinct target code, the result
is exactly one synthetic holding of weight exactly `95.0` whose quote key
is `"sh" ++ code` if the code starts with `'5'` and `"sz" ++ code`
otherwise.  This ETF rule is strictly narrower than the general market
heuristic: on `"430047"` it yields `sz430047` where the absent-market-id
heuristic of `sinaCode` yields `bj430047`. -/
theorem feeder_synthetic_holding (search : String → Option String)
    (fund_code target_name t : String)
    (ht : (resolveFeederTarget search fund_code target_name).target = some t) :
    feederHoldings search fund_code target_name
        = some [⟨t, target_name, 95,
            some (if startsWithChar t '5' then "sh" ++ t else "sz" ++ t)⟩]
    ∧ (∀ l, feederHoldings search fund_code target_name = some l →
        l.length = 1 ∧ ∀ h ∈ l, h.weight = 95)
    ∧ feederQuoteKey "430047" = "sz430047"
    ∧ sinaCode none "430047" = "bj430047" := by
  have hfh : feederHoldings search fund_code target_name
      = some [⟨t, target_name, 95, some (feederQuoteKey t)⟩] := by
    unfold feederHoldings
    rw [ht]
  refine ⟨?_, ?_, by decide, by decide⟩
  · rw [hfh]
    rfl
  · intro l hl
    rw [hfh] at hl
    cases hl
    refine ⟨rfl, ?_⟩
    intro h hm
    rw [List.mem_singleton] at hm
    rw [hm]

/-- Witness for C8 at a concrete input: the search returns a distinct
ETF code starting with `'5'`. -/
theorem feeder_synthetic_holding_witness :
    ((resolveFeederTarget (fun _ => some "510500") "012345" "中证500ETF").target
        = some "510500")
    ∧ feederHoldings (fun _ => some "510500") "012345" "中证500ETF"
        = some [⟨"510500", "中证500ETF", 95,
            some (if startsWithChar "510500" '5' then "sh" ++ "510500" else "sz" ++ "510500")⟩] :=
  ⟨by decide,
   (feeder_synthetic_holding (fun _ => some "510500") "012345" "中证500ETF" "510500"
      (by decide)).1⟩

/-- One historical NAV record (`FSRQ`/`DWJZ` of a page row,
src/data_fetcher.py:64-69): the date as an integer ordinal (dates compare
by `≤` exactly as `pd.to_datetime` values do) and the unit NAV. -/
structure NavRecord where
  date : Int
  nav : ℚ
deriving DecidableEq

/-- Ordering of NAV records by date, the sort key of
`df.sort_values('date')` (src/data_fetcher.py:70). -/
def dateLe (a b : NavRecord) : Prop :=
  a.date ≤ b.date

instance : DecidableRel dateLe :=
  fun a b => inferInstanceAs (Decidable (a.date ≤ b.date))

/-- `get_fund_history_nav` (src/data_fetcher.py:12-80) with the network
abstracted: `pages` holds the per-page record lists as collected into
`data_list` (completion order is arbitrary, src/data_fetcher.py:51-56; a
failed page contributes `[]`), and `cutoff` is `now - days`
(src/data_fetcher.py:73).  If nothing was collected the result is the
no-data signal `none`; otherwise the records are sorted ascending by date
(`sort_values`, modelled by an insertion sort — pandas does not promise a
tie order) and filtered to `date ≥ cutoff`.  No deduplication is
performed anywhere in the source. -/
def get_fund_history_nav (pages : List (List NavRecord)) (cutoff : Int) :
    Option (List NavRecord) :=
  let data_list := pages.flatten
  if data_list.isEmpty then none
  else some ((List.insertionSort dateLe data_list).filter (fun r => decide (cutoff ≤ r.date)))

/-- C3 counterexample: two overlapping pages that both return the record
for date `0` produce a series with that date twice — the code sorts and
clips but never deduplicates, so the output is not strictly ascending. -/
theorem history_duplicate_dates_counterexample :
    get_fund_history_nav [[⟨0, 1⟩], [⟨0, 1⟩]] 0 = some [⟨0, 1⟩, ⟨0, 1⟩]
    ∧ ¬ List.Pairwise (fun a b : NavRecord => a.date < b.date) [⟨0, 1⟩, ⟨0, 1⟩] := by
  constructor
  · rfl
  · intro h
    have := List.rel_of_pairwise_cons h (List.mem_singleton.mpr rfl)
    simp at this

/-- C3 amended: the history fetcher returns the no-data signal exactly when
every page failed or returned nothing; otherwise the series is ascending by
date (not strictly: duplicate dates from overlapping pages are kept),
clipped locally to `date ≥ cutoff`, and is a permutation of the clipped
concatenation of the pages. -/
theorem history_sorted_clipped (pages : List (List NavRecord)) (cutoff : Int) :
    (get_fund_history_nav pages cutoff = none ↔ pages.flatten = [])
    ∧ (∀ out, get_fund_history_nav pages cutoff = some out →
        List.Pairwise dateLe out
        ∧ (∀ r ∈ out, cutoff ≤ r.date)
        ∧ out.Perm (pages.flatten.filter (fun r => decide (cutoff ≤ r.date)))) := by
  constructor
  · unfold get_fund_history_nav
    by_cases he : pages.flatten.isEmpty
    · rw [if_pos he]
      simp [List.isEmpty_iff.mp he]
    · rw [if_neg he]
      constructor
      · intro h
        exact absurd h (by simp)
      · intro h
        exact absurd (List.isEmpty_iff.mpr h) he
  · intro out hout
    unfold get_fund_history_nav at hout
    by_cases he : pages.flatten.isEmpty
    · rw [if_pos he] at hout
      exact absurd hout (by simp)
    · rw [if_neg he, Option.some.injEq] at hout
      subst hout
      haveI : IsTotal NavRecord dateLe := ⟨fun a b => Int.le_total a.date b.date⟩
      haveI : IsTrans NavRecord dateLe := ⟨fun _ _ _ hab hbc => le_trans hab hbc⟩
      refine ⟨?_, ?_, ?_⟩
      · exact List.Pairwise.sublist (List.filter_sublist _)
          (List.sorted_insertionSort dateLe pages.flatten)
      · intro r hr
        rw [List.mem_filter] at hr
        exact of_decide_eq_true hr.2
      · exact (List.perm_insertionSort dateLe pages.flatten).filter _

/-- Witness for C3's amended theorem at a concrete input: three pages, out
of order, one record below the cutoff. -/
theorem history_sorted_clipped_witness :
    get_fund_history_nav [[⟨3, 1⟩], [⟨1, 2⟩], [⟨2, 5⟩]] 2 = some [⟨2, 5⟩, ⟨3, 1⟩]
    ∧ (List.Pairwise dateLe [⟨2, 5⟩, ⟨3, 1⟩]
        ∧ (∀ r ∈ ([⟨2, 5⟩, ⟨3, 1⟩] : List NavRecord), 2 ≤ r.date)
        ∧ List.Perm [⟨2, 5⟩, ⟨3, 1⟩]
            (([[⟨3, 1⟩], [⟨1, 2⟩], [⟨2, 5⟩]] : List (List NavRecord)).flatten.filter
              (fun r => decide (2 ≤ r.date)))) :=
  ⟨rfl, (history_sorted_clipped [[⟨3, 1⟩], [⟨1, 2⟩], [⟨2, 5⟩]] 2).2 [⟨2, 5⟩, ⟨3, 1⟩] rfl⟩

end Fund
